import Mathlib

/-
Verification of the go-dsmrp1 telegram decoder against its specification.

The Go library is shallowly embedded: the byte stream is a finite List Char
(one Char per byte; the input is ASCII, as the protocol requires); the end of
the list models the point at which the underlying reader fails (bufio returns
the partially-read data together with a non-nil error, and every later read
returns an error with no data — EOF and I/O failures surface identically to
this code).  Go maps are association lists; Go float parsing is modelled
exactly over the decimal syntax with rational values in place of rounded
floats (hex floats, Inf/NaN, digit underscores and float32 overflow/underflow
range errors are outside the model); Atoi is modelled without the int64 range
check; reflect-driven struct filling is modelled by an explicit registry read
off the obis/type struct tags, in struct-field order.  A Go runtime panic
(slice index out of range) is a distinguished outcome, as is the data-read
loop failing to terminate.
-/

def toL (s : String) : List Char := s.data

/-- Unicode (here: ASCII) whitespace as trimmed by strings.TrimSpace and
bytes.TrimSpace. -/
def isGoSpace (c : Char) : Bool :=
  c = ' ' || c = '\t' || c = '\n' || c = '\x0b' || c = '\x0c' || c = '\r'

def trimSpace (l : List Char) : List Char :=
  ((l.dropWhile isGoSpace).reverse.dropWhile isGoSpace).reverse

/-- One shift-xor round of the reflected CRC-16 table construction
(polynomial 0xA001, the reflected CCITT/IBM polynomial 0x8005). -/
def crcStep (c : Nat) : Nat := if c % 2 = 1 then (c / 2) ^^^ 0xA001 else c / 2

/-- Entry n of crc16.IBMTable: eight shift-xor rounds starting from n. -/
def crc16Entry (n : Nat) : Nat :=
  crcStep (crcStep (crcStep (crcStep (crcStep (crcStep (crcStep (crcStep n)))))))

/-- One byte of crc16.Update: crc = tab[byte(crc)^v] ^ (crc >> 8). -/
def crc16Update (c b : Nat) : Nat := (c / 256) ^^^ crc16Entry ((c % 256) ^^^ (b % 256))

/-- Go function crc: crc16.Update(0xffff, crc16.IBMTable, data) ^ 0xffff. -/
def crc (data : List Char) : Nat :=
  (data.foldl (fun c b => crc16Update c b.toNat) 0xffff) ^^^ 0xffff

/-- Optional leading sign accepted by strconv.ParseInt / ParseFloat. -/
def parseSign : List Char → Int × List Char
  | '+' :: r => (1, r)
  | '-' :: r => (-1, r)
  | r => (1, r)

def digitsVal (l : List Char) : Nat := l.foldl (fun a c => 10 * a + (c.toNat - 48)) 0

/-- Base-10 digit accumulation of strconv.Atoi (none on a non-digit). -/
def decValGo : List Char → Nat → Option Nat
  | [], acc => some acc
  | c :: cs, acc => if c.isDigit then decValGo cs (10 * acc + (c.toNat - 48)) else none

/-- strconv.Atoi: optional sign then at least one decimal digit
(the int64 range check is not modelled). -/
def goAtoi (s : String) : Option Int :=
  let sp := parseSign s.data
  if sp.2 = [] then none
  else (decValGo sp.2 0).map (fun n => sp.1 * (n : Int))

def hexDigitVal (c : Char) : Option Nat :=
  if c.isDigit then some (c.toNat - 48)
  else if 'a' ≤ c ∧ c ≤ 'f' then some (c.toNat - 87)
  else if 'A' ≤ c ∧ c ≤ 'F' then some (c.toNat - 55)
  else none

def hexValGo : List Char → Nat → Option Nat
  | [], acc => some acc
  | c :: cs, acc =>
    match hexDigitVal c with
    | none => none
    | some d => hexValGo cs (16 * acc + d)

/-- strconv.ParseInt(s, 16, 32) as used on the footer: optional sign, at
least one hex digit, and the value must fit a signed 32-bit integer (out of
range is an error, which the caller treats as a parse failure). -/
def goParseInt16_32 (s : String) : Option Int :=
  let sp := parseSign s.data
  if sp.2 = [] then none
  else match hexValGo sp.2 0 with
    | none => none
    | some n =>
      let v : Int := sp.1 * (n : Int)
      if v < -(2 ^ 31) ∨ (2 ^ 31 - 1 : Int) < v then none else some v

/-- Modelled from the spec: the footer content parsed "as a hexadecimal
16-bit integer" — at least one hex digit and a value fitting in 16 bits.
This definition follows the specification's words and exists only to be
compared with goParseInt16_32, the parse the source actually performs. -/
def specParseHex16 (s : String) : Option Nat :=
  if s.data = [] then none
  else match hexValGo s.data 0 with
    | none => none
    | some n => if n ≤ 0xFFFF then some n else none

/-- Split a character list at the first character satisfying p (the
separator is dropped); none when no character satisfies p. -/
def splitFirstChar (p : Char → Bool) : List Char → Option (List Char × List Char)
  | [] => none
  | c :: cs =>
    if p c then some ([], cs)
    else match splitFirstChar p cs with
      | none => none
      | some (a, b) => some (c :: a, b)

/-- A syntactically well-formed decimal literal: sign, mantissa digits,
number of fraction digits, exponent. -/
structure FloatLit where
  sign : Int
  digits : Nat
  fracLen : Nat
  exp10 : Int
deriving DecidableEq, Repr

/-- The exact rational value of a decimal literal:
sign * digits / 10^fracLen * 10^exp10. -/
def FloatLit.value (l : FloatLit) : ℚ :=
  (l.sign : ℚ) * (l.digits : ℚ) / (10 : ℚ) ^ l.fracLen * (10 : ℚ) ^ l.exp10

/-- The syntactic phase of strconv.ParseFloat over the plain decimal syntax:
optional sign, mantissa digits with an optional '.', optional signed
exponent; at least one mantissa digit required (hex floats, Inf/NaN and
underscores are outside the model). -/
def parseFloatParts (s : List Char) : Option FloatLit :=
  let sp := parseSign s
  let me := match splitFirstChar (fun c => c = 'e' || c = 'E') sp.2 with
    | none => (sp.2, (none : Option (List Char)))
    | some (m, e) => (m, some e)
  let ipfp := match splitFirstChar (fun c => c = '.') me.1 with
    | none => (me.1, ([] : List Char))
    | some (i, f) => (i, f)
  if ipfp.1 ++ ipfp.2 = [] then none
  else if ¬ ((ipfp.1 ++ ipfp.2).all Char.isDigit) then none
  else
    match me.2 with
    | none => some ⟨sp.1, digitsVal (ipfp.1 ++ ipfp.2), ipfp.2.length, 0⟩
    | some e =>
      let esp := parseSign e
      if esp.2 = [] ∨ ¬ (esp.2.all Char.isDigit) then none
      else some ⟨sp.1, digitsVal (ipfp.1 ++ ipfp.2), ipfp.2.length,
                 esp.1 * (digitsVal esp.2 : Int)⟩

/-- strconv.ParseFloat, with the exact rational value of the literal in
place of the rounded float (float32 overflow/underflow range errors are not
modelled). -/
def parseFloat (s : List Char) : Option ℚ := (parseFloatParts s).map FloatLit.value

inductive UErr
  | notAUnit (v : String)
  | badAmount (s : String)
  | unknownUnit (v : String)
deriving DecidableEq, Repr

inductive URes
  | uerr (e : UErr)
  | val (q : ℚ)
deriving DecidableEq, Repr

/-- Lookup in the fixed normalizedUnits map
{kWh:1, kW:1000, W:1, s:1, m3:1, A:1, V:1}. -/
def unitsLookup (u : String) : Option ℚ :=
  if u = "kWh" then some 1
  else if u = "kW" then some 1000
  else if u = "W" then some 1
  else if u = "s" then some 1
  else if u = "m3" then some 1
  else if u = "A" then some 1
  else if u = "V" then some 1
  else none

/-- Go function parseUnit: strings.SplitN(v, "*", 2); exactly two parts,
parse the amount, look up the unit factor, multiply. -/
def parseUnitCore (v : List Char) : URes :=
  match splitFirstChar (fun c => c = '*') v with
  | none => .uerr (.notAUnit (String.mk v))
  | some (a, u) =>
    match parseFloat a with
    | none => .uerr (.badAmount (String.mk a))
    | some q =>
      match unitsLookup (String.mk u) with
      | none => .uerr (.unknownUnit (String.mk v))
      | some f => .val (q * f)

def parseUnit (v : String) : URes := parseUnitCore v.data

inductive Err
  | ioError
  | headerTooShort
  | sepNotBlank
  | checksumParse
  | crcMismatch
  | malformedArgument (line : String)
  | duplicateObis (obis : String)
  | missingData (obis : String)
  | wrongArgCount (obis : String)
  | badInt (obis : String)
  | unitErr (obis : String) (e : UErr)
  | gasValueErr (obis : String) (e : UErr)
deriving DecidableEq, Repr

/-- The Go map[string][]string, as an association list. -/
abbrev DMap := List (String × List String)

def mlookup : DMap → String → Option (List String)
  | [], _ => none
  | (k, v) :: m, o => if o = k then some v else mlookup m o

def merase : DMap → String → DMap
  | [], _ => []
  | (k, v) :: m, o => if k = o then merase m o else (k, v) :: merase m o

def minsert (m : DMap) (k : String) (v : List String) : DMap := m ++ [(k, v)]

/-- strings.Split(line, "(") presented as (first segment, later segments). -/
def splitAllP (sep : Char) : List Char → List Char × List (List Char)
  | [] => ([], [])
  | c :: cs =>
    let r := splitAllP sep cs
    if c = sep then ([], r.1 :: r.2) else (c :: r.1, r.2)

/-- bits[0] of strings.Split(line, "("): the code before the first "(". -/
def obisOf (l : List Char) : String := String.mk (splitAllP '(' l).1

/-- The argument loop of parseLines: every segment must end in ")"
(stripped), else the malformed-argument error naming the whole line. -/
def parseArgsGo (line : List Char) : List (List Char) → Except Err (List String)
  | [] => .ok []
  | a :: rest =>
    if a.getLast? = some ')' then
      match parseArgsGo line rest with
      | .ok as => .ok (String.mk a.dropLast :: as)
      | .error e => .error e
    else .error (.malformedArgument (String.mk line))

def parseLine (l : List Char) : Except Err (String × List String) :=
  match parseArgsGo l (splitAllP '(' l).2 with
  | .error e => .error e
  | .ok args => .ok (obisOf l, args)

def lineArgsOk (l : List Char) : Bool :=
  match parseLine l with
  | .ok _ => true
  | .error _ => false

/-- lines[len(lines)-1] += sRawLine: append onto the last accumulated line. -/
def appendToLast : List (List Char) → List Char → List (List Char)
  | [], _ => []
  | [x], l => [x ++ l]
  | x :: y :: xs, l => x :: appendToLast (y :: xs) l

/-- The continuation-line merge of parseLines.  A line beginning with "("
is appended onto the last accumulated line; with no accumulated line yet,
lines[len(lines)-1] indexes position -1 of an empty slice: a Go runtime
panic, modelled as none. -/
def mergeLoop : List (List Char) → List (List Char) → Option (List (List Char))
  | acc, [] => some acc
  | acc, l :: ls =>
    if l.head? = some '(' then
      match acc with
      | [] => none
      | _ :: _ => mergeLoop (appendToLast acc l) ls
    else mergeLoop (acc ++ [l]) ls

def mergeLines (raw : List (List Char)) : Option (List (List Char)) :=
  mergeLoop [] raw

def parseLinesLoop : List (List Char) → DMap → Except Err DMap
  | [], ret => .ok ret
  | l :: ls, ret =>
    match parseLine l with
    | .error e => .error e
    | .ok (obis, args) =>
      if (mlookup ret obis).isSome then .error (.duplicateObis obis)
      else parseLinesLoop ls (minsert ret obis args)

inductive PLR
  | plPanic
  | plErr (e : Err)
  | plOk (m : DMap)
deriving DecidableEq, Repr

/-- Go function parseLines: merge continuation lines (possibly panicking),
then split each line into code and ")"-terminated arguments, rejecting a
code that is already present. -/
def parseLines (raw : List (List Char)) : PLR :=
  match mergeLines raw with
  | none => .plPanic
  | some lines =>
    match parseLinesLoop lines [] with
    | .error e => .plErr e
    | .ok m => .plOk m

/-- The decode kind of a struct field, from its type struct tag.  "log"
(PowerFailuresLog) has no case in the fillStruct switch: the code is claimed
but nothing is stored. -/
inductive DecodeKind
  | id
  | int
  | gasrecord
  | unit
  | log
deriving DecidableEq, Repr

/-- One obis-tagged struct field: its code, decode kind, and whether the
field is a pointer (optional). -/
structure RegEntry where
  obis : String
  kind : DecodeKind
  optional : Bool
deriving DecidableEq, Repr

inductive FieldVal
  | vStr (s : String)
  | vInt (n : Int)
  | vFloat (q : ℚ)
  | vGas (ts : String) (v : ℚ)
deriving DecidableEq, Repr

/-- The observable state of one target field after fillStruct. -/
inductive FieldState
  | unset
  | zero
  | allocZero
  | val (v : FieldVal)
deriving DecidableEq, Repr

/-- The switch of fillStruct for a present code: arity check, then decode by
kind; on any failure the field keeps init (its freshly written zero). -/
def fillFieldVal (kind : DecodeKind) (obis : String) (args : List String)
    (init : FieldState) : FieldState × List Err :=
  match kind with
  | .id =>
    match args with
    | [a] => (.val (.vStr a), [])
    | _ => (init, [.wrongArgCount obis])
  | .int =>
    match args with
    | [a] =>
      match goAtoi a with
      | none => (init, [.badInt obis])
      | some n => (.val (.vInt n), [])
    | _ => (init, [.wrongArgCount obis])
  | .gasrecord =>
    match args with
    | [ts, va] =>
      match parseUnit va with
      | .uerr u => (init, [.gasValueErr obis u])
      | .val q => (.val (.vGas ts q), [])
    | _ => (init, [.wrongArgCount obis])
  | .unit =>
    match args with
    | [a] =>
      match parseUnit a with
      | .uerr u => (init, [.unitErr obis u])
      | .val q => (.val (.vFloat q), [])
    | _ => (init, [.wrongArgCount obis])
  | .log => (init, [])

/-- One iteration of the fillStruct field loop.  Absent code: a missing-data
error for a non-pointer field, nothing for a pointer field, map unchanged.
Present code: the entry is deleted from the map, a pointer field is set to a
freshly allocated zero value before the arguments are inspected, and the
switch runs. -/
def fillField (e : RegEntry) (d : DMap) : FieldState × List Err × DMap :=
  match mlookup d e.obis with
  | none =>
    (if e.optional then FieldState.unset else FieldState.zero,
     if e.optional then [] else [Err.missingData e.obis], d)
  | some args =>
    let init := if e.optional then FieldState.allocZero else FieldState.zero
    let p := fillFieldVal e.kind e.obis args init
    (p.1, p.2, merase d e.obis)

structure FillRes where
  fields : List (String × FieldState)
  errs : List Err
  rest : DMap
deriving DecidableEq, Repr

/-- Go function fillStruct: walk the obis-tagged fields in struct order,
threading the (destructively consumed) map and accumulating errors. -/
def fillStruct : List RegEntry → DMap → FillRes
  | [], d => ⟨[], [], d⟩
  | e :: es, d =>
    let p := fillField e d
    let r := fillStruct es p.2.2
    ⟨(e.obis, p.1) :: r.fields, p.2.1 ++ r.errs, r.rest⟩

/-- The obis/type tags of the Telegram struct, in field order. -/
def telegramReg : List RegEntry :=
  [⟨"1-3:0.2.8", .id, false⟩, ⟨"0-0:1.0.0", .id, false⟩, ⟨"0-0:96.1.1", .id, false⟩,
   ⟨"0-0:96.13.1", .id, true⟩, ⟨"0-0:96.13.0", .id, true⟩]

/-- The obis/type tags of the ElectricityData struct, in field order. -/
def elecReg : List RegEntry :=
  [⟨"1-0:1.8.2", .unit, false⟩, ⟨"1-0:1.8.1", .unit, false⟩,
   ⟨"1-0:2.8.2", .unit, false⟩, ⟨"1-0:2.8.1", .unit, false⟩,
   ⟨"0-0:96.14.0", .int, false⟩, ⟨"1-0:1.7.0", .unit, false⟩,
   ⟨"1-0:2.7.0", .unit, false⟩, ⟨"0-0:17.0.0", .unit, true⟩,
   ⟨"0-0:96.3.10", .id, true⟩, ⟨"0-0:96.7.21", .int, false⟩,
   ⟨"0-0:96.7.9", .int, false⟩, ⟨"1-0:99.97.0", .log, false⟩,
   ⟨"1-0:32.32.0", .int, false⟩, ⟨"1-0:32.36.0", .int, false⟩,
   ⟨"1-0:31.7.0", .unit, false⟩, ⟨"1-0:32.7.0", .unit, true⟩,
   ⟨"1-0:21.7.0", .unit, false⟩, ⟨"1-0:22.7.0", .unit, false⟩]

/-- The obis/type tags of the MultiphaseElectricityData struct, in order. -/
def multiReg : List RegEntry :=
  [⟨"1-0:52.32.0", .int, false⟩, ⟨"1-0:52.36.0", .int, false⟩,
   ⟨"1-0:51.7.0", .unit, false⟩, ⟨"1-0:52.7.0", .unit, true⟩,
   ⟨"1-0:41.7.0", .unit, false⟩, ⟨"1-0:42.7.0", .unit, false⟩,
   ⟨"1-0:72.32.0", .int, false⟩, ⟨"1-0:72.36.0", .int, false⟩,
   ⟨"1-0:71.7.0", .unit, false⟩, ⟨"1-0:72.7.0", .unit, true⟩,
   ⟨"1-0:61.7.0", .unit, false⟩, ⟨"1-0:62.7.0", .unit, false⟩]

/-- The obis/type tags of the GasData struct, in field order. -/
def gasReg : List RegEntry :=
  [⟨"0-1:24.1.0", .id, false⟩, ⟨"0-1:96.1.0", .id, false⟩,
   ⟨"0-1:24.4.0", .id, true⟩, ⟨"0-1:24.2.1", .gasrecord, false⟩]

/-- The decoded Telegram: header parts, the obis-keyed outcome of each
applied registry, and the residual map (ret.Other). -/
structure Telegram where
  headerMarker : String
  headerId : String
  baseFields : List (String × FieldState)
  electricity : Option (List (String × FieldState))
  multiphase : Option (List (String × FieldState))
  gas : Option (List (String × FieldState))
  other : DMap
deriving DecidableEq, Repr

/-- The decode phase of readTelegram (lines after the CRC check): fill the
Telegram fields, then — keyed on marker-code presence in the by-then
partially consumed map — fill ElectricityData, MultiphaseElectricityData and
GasData; whatever remains becomes Other. -/
def decodeData (marker hid : String) (d0 : DMap) : Telegram × List Err :=
  let r0 := fillStruct telegramReg d0
  let b1 := (mlookup r0.rest "1-0:1.8.1").isSome
  let r1 := if b1 then fillStruct elecReg r0.rest else ⟨[], [], r0.rest⟩
  let b2 := (mlookup r1.rest "1-0:41.7.0").isSome
  let r2 := if b2 then fillStruct multiReg r1.rest else ⟨[], [], r1.rest⟩
  let b3 := (mlookup r2.rest "0-1:24.2.1").isSome
  let r3 := if b3 then fillStruct gasReg r2.rest else ⟨[], [], r2.rest⟩
  (⟨marker, hid, r0.fields,
    if b1 then some r1.fields else none,
    if b2 then some r2.fields else none,
    if b3 then some r3.fields else none,
    r3.rest⟩,
   r0.errs ++ r1.errs ++ r2.errs ++ r3.errs)

/-- The codes of every registry entry applied to a telegram whose
code-to-arguments map is d (the presence conditions are stated on d; no
earlier registry contains a marker code, so they agree with the conditions
decodeData evaluates on the partially consumed map). -/
def claimedObis (d : DMap) : List String :=
  telegramReg.map RegEntry.obis
  ++ (if (mlookup d "1-0:1.8.1").isSome then elecReg.map RegEntry.obis else [])
  ++ (if (mlookup d "1-0:41.7.0").isSome then multiReg.map RegEntry.obis else [])
  ++ (if (mlookup d "0-1:24.2.1").isSome then gasReg.map RegEntry.obis else [])

/-- bufio ReadBytes('\n'): the line including its newline and the remaining
stream, or none when the stream is exhausted first (the read error case). -/
def readLineGo : List Char → List Char → Option (List Char × List Char)
  | [], _ => none
  | c :: rest, acc =>
    if c = '\n' then some (acc.reverse ++ ['\n'], rest) else readLineGo rest (c :: acc)

/-- The wait-for-header loop of readTelegram: read lines, skipping any that
does not start with '/'; none on a read error. -/
def hwGo : List Char → List Char → Option (List Char × List Char)
  | [], _ => none
  | c :: rest, acc =>
    if c = '\n' then
      let line := acc.reverse ++ ['\n']
      if line.head? = some '/' then some (line, rest) else hwGo rest []
    else hwGo rest (c :: acc)

inductive DataRes
  | ioHang
  | done (rawLines : List (List Char)) (body : List Char) (footer : List Char)
deriving DecidableEq, Repr

/-- The data-line loop of readTelegram.  The ReadBytes error is ignored: a
line starting with '!' (even a partial one at a read failure) is the footer;
otherwise the line is accumulated.  After a read failure every further read
returns no data and the same error, so unless the partial data starts with
'!' the loop never terminates — modelled as ioHang. -/
def dlGo : List Char → List Char → List (List Char) → List Char → DataRes
  | [], acc, raw, body =>
    let part := acc.reverse
    if part.head? = some '!' then .done raw body part else .ioHang
  | c :: rest, acc, raw, body =>
    if c = '\n' then
      let line := acc.reverse ++ ['\n']
      if line.head? = some '!' then .done raw body line
      else dlGo rest [] (raw ++ [trimSpace line]) (body ++ line)
    else dlGo rest (c :: acc) raw body

inductive HeaderParse
  | tooShort
  | slicePanic
  | okHdr (marker hid : String)
deriving DecidableEq, Repr

/-- Go slicing line[:n]: defined only when n ≤ len(line), else a panic. -/
def goSliceTo (l : List Char) (n : Nat) : Option (List Char) :=
  if n ≤ l.length then some (l.take n) else none

/-- The header parse of readTelegram: the guard is len(line) < 5, then
line[:6] is sliced — a 5-byte line passes the guard and panics. -/
def parseHeader (line : List Char) : HeaderParse :=
  if line.length < 5 then .tooShort
  else match goSliceTo line 6 with
    | none => .slicePanic
    | some m => .okHdr (String.mk m) (String.mk (trimSpace (line.drop 6)))

/-- The CRC check of readTelegram: crc over body + '!', the footer after its
'!' byte trimmed and parsed as hex with ParseInt(_, 16, 32), equality of the
two required. -/
def checkCRC (body footer : List Char) : Option Err :=
  let c1 : Int := (crc (body ++ ['!']) : Nat)
  match goParseInt16_32 (String.mk (trimSpace (footer.drop 1))) with
  | none => some .checksumParse
  | some c2 => if c1 ≠ c2 then some .crcMismatch else none

inductive RTOut
  | fatal (e : Err)
  | hang
  | panicOut
  | okOut (t : Telegram) (errs : List Err)
deriving DecidableEq, Repr

/-- Go method readTelegram over a byte source: wait for the header line,
parse it, require a blank separator line, accumulate data lines up to the
'!' footer, check the CRC, split the lines and decode.  fatal e models
(nil, []error{e}); okOut t errs models (&t, errs) with errs the field-level
error list (nil in Go when empty). -/
def readTelegram (s : List Char) : RTOut :=
  match hwGo s [] with
  | none => .fatal .ioError
  | some (line, s1) =>
    match parseHeader line with
    | .tooShort => .fatal .headerTooShort
    | .slicePanic => .panicOut
    | .okHdr marker hid =>
      match readLineGo s1 [] with
      | none => .fatal .ioError
      | some (l2, s2) =>
        if trimSpace l2 ≠ [] then .fatal .sepNotBlank
        else
          match dlGo s2 [] [] (line ++ l2) with
          | .ioHang => .hang
          | .done raw body footer =>
            match checkCRC body footer with
            | some e => .fatal e
            | none =>
              match parseLines raw with
              | .plPanic => .panicOut
              | .plErr e => .fatal e
              | .plOk d =>
                let te := decodeData marker hid d
                .okOut te.1 te.2

/-- One iteration of the NewMeter goroutine: t, err2 := readTelegram(); the
telegram is sent on the channel only when err2 is nil, i.e. only when the
error list is empty; any error (fatal or field-level) is logged and the
telegram, if any, is dropped.  A hanging or panicking iteration never
reaches the channel send. -/
def driverStep : RTOut → Option Telegram
  | .okOut t [] => some t
  | _ => none

/-- A minimal framed, checksum-valid telegram with no data lines at all:
every required telegram-level code is missing, so decoding succeeds with
field-level errors.  crc of "/ABC12\r\n\r\n!" is 0xeb00. -/
def s1 : List Char := toL "/ABC12\r\n\r\n!eb00\r\n"

/-- The Telegram readTelegram decodes from s1. -/
def t1 : Telegram :=
  ⟨"/ABC12", "",
   [("1-3:0.2.8", .zero), ("0-0:1.0.0", .zero), ("0-0:96.1.1", .zero),
    ("0-0:96.13.1", .unset), ("0-0:96.13.0", .unset)],
   none, none, none, []⟩

/-- The field-level error list readTelegram returns for s1. -/
def e1 : List Err :=
  [.missingData "1-3:0.2.8", .missingData "0-0:1.0.0", .missingData "0-0:96.1.1"]

/-- C1 counterexample: a framed, checksum-valid telegram whose decode carries
field-level errors is returned by readTelegram as a Telegram value, yet the
Stream Driver does not publish it (err2 != nil makes the goroutine log and
continue). -/
theorem C1_counterexample :
    readTelegram s1 = .okOut t1 e1 ∧ e1 ≠ [] ∧ driverStep (readTelegram s1) = none := by
  refine ⟨by decide, by decide, by decide⟩

/-- C1 (amended): readTelegram returns the decoded Telegram together with
its field-level errors, but the Stream Driver publishes it downstream only
when the error list is empty; with any field-level error it logs and drops
the telegram. -/
theorem C1_publish_iff_no_errors (s : List Char) (t : Telegram) (errs : List Err)
    (h : readTelegram s = .okOut t errs) :
    (errs = [] → driverStep (readTelegram s) = some t)
  ∧ (errs ≠ [] → driverStep (readTelegram s) = none) := by
  rw [h]
  constructor
  · intro he; subst he; rfl
  · intro he
    cases errs with
    | nil => exact absurd rfl he
    | cons a l => rfl

theorem C1_witness : driverStep (readTelegram s1) = none :=
  (C1_publish_iff_no_errors s1 t1 e1 (by decide)).2 (by decide)

/-- C2: the header guard is len(line) < 5, so the 5-byte header line
"/xyz\n" passes the guard and the slice line[:6] panics (index out of
range), instead of the framing error the claim requires; a 4-byte header
line is a framing error, and a line of at least six characters parses into
the 6-character marker and the trimmed remainder. -/
theorem C2_header_guard :
    readTelegram (toL "/xyz\n") = .panicOut
  ∧ readTelegram (toL "/ab\n") = .fatal .headerTooShort
  ∧ parseHeader (toL "/ABC12\r\n") = .okHdr "/ABC12" "" := by
  refine ⟨by decide, by decide, by decide⟩

/-- C3 counterexample: the footer content "10000" parses successfully under
the ParseInt(_, 16, 32) call the source performs (value 65536), while a
16-bit parse per the specification's words fails; the resulting fatal error
on such a footer is the CRC mismatch, not a checksum-parse failure. -/
theorem C3_counterexample :
    goParseInt16_32 "10000" = some 65536
  ∧ specParseHex16 "10000" = none
  ∧ readTelegram (toL "/ABC12\r\n\r\n!10000\r\n") = .fatal .crcMismatch := by
  refine ⟨by decide, by decide, by decide⟩

/-- C3 (amended): checksum validation computes the reflected CCITT/IBM CRC
seeded at 0xFFFF over body + '!' xored with 0xFFFF, parses the footer after
its marker byte as a hexadecimal 32-bit integer, and succeeds exactly when
the parse succeeds with the CRC's value; otherwise a fatal error is
returned. -/
theorem C3_checksum_iff (body footer : List Char) :
    checkCRC body footer = none ↔
      goParseInt16_32 (String.mk (trimSpace (footer.drop 1)))
        = some ((crc (body ++ ['!']) : Nat) : Int) := by
  unfold checkCRC
  cases h : goParseInt16_32 (String.mk (trimSpace (footer.drop 1))) with
  | none => simp [h]
  | some v =>
    by_cases hv : ((crc (body ++ ['!']) : Nat) : Int) = v
    · simp [h, hv]
    · simp [h, hv, Ne.symm hv]

/-- C4: a read failure while waiting for the header or while reading the
separator line aborts the telegram with an error and no Telegram value, but
a read failure during the data-line loop is ignored (err is never checked
there): the loop re-reads the failed source forever and readTelegram never
returns, contradicting the claim for that phase. -/
theorem C4_io_failure :
    readTelegram (toL "") = .fatal .ioError
  ∧ readTelegram (toL "/ABC12\r\n") = .fatal .ioError
  ∧ readTelegram (toL "/ABC12\r\n\r\nB(1)\r\n") = .hang := by
  refine ⟨by decide, by decide, by decide⟩

theorem splitFirstChar_append (p : Char → Bool) (a : List Char) (c : Char)
    (u : List Char) (ha : ∀ x ∈ a, p x = false) (hc : p c = true) :
    splitFirstChar p (a ++ c :: u) = some (a, u) := by
  induction a with
  | nil => simp [splitFirstChar, hc]
  | cons x xs ih =>
    have hx := ha x (by simp)
    have ih2 := ih (fun y hy => ha y (List.mem_cons_of_mem _ hy))
    simp [splitFirstChar, hx, ih2]

/-- C5: the Unit Normalizer splits on the first '*', requires exactly two
parts, parses the amount, multiplies by the factor from the fixed table, and
fails with the unknown-unit error for any other suffix; in particular
"228.584*kWh" normalizes to 228.584, "1.193*kW" to 1193 and "1*XYZ" fails
with the unknown-unit error. -/
theorem C5_unit_normalizer (a u : List Char) (q f : ℚ)
    (ha : '*' ∉ a) (hq : parseFloat a = some q) :
    parseUnit "228.584*kWh" = URes.val (228584 / 1000)
  ∧ parseUnit "1.193*kW" = URes.val 1193
  ∧ parseUnit "1*XYZ" = URes.uerr (UErr.unknownUnit "1*XYZ")
  ∧ (unitsLookup (String.mk u) = some f →
       parseUnitCore (a ++ '*' :: u) = URes.val (q * f))
  ∧ (unitsLookup (String.mk u) = none →
       parseUnitCore (a ++ '*' :: u) = URes.uerr (UErr.unknownUnit (String.mk (a ++ '*' :: u)))) := by
  have hsplit : splitFirstChar (fun c => c = '*') (a ++ '*' :: u) = some (a, u) := by
    refine splitFirstChar_append _ _ _ _ (fun x hx => ?_) (by simp)
    simp only [decide_eq_false_iff_not]
    intro hx2
    exact ha (hx2 ▸ hx)
  refine ⟨?_, ?_, by decide, fun hl => ?_, fun hl => ?_⟩
  · have h1 : parseUnit "228.584*kWh" = URes.val (FloatLit.value ⟨1, 228584, 3, 0⟩ * 1) := rfl
    rw [h1]
    simp only [URes.val.injEq, FloatLit.value]
    norm_num
  · have h1 : parseUnit "1.193*kW" = URes.val (FloatLit.value ⟨1, 1193, 3, 0⟩ * 1000) := rfl
    rw [h1]
    simp only [URes.val.injEq, FloatLit.value]
    norm_num
  · simp [parseUnitCore, hsplit, hq, hl]
  · simp [parseUnitCore, hsplit, hq, hl]

theorem C5_witness : parseUnitCore (toL "2" ++ '*' :: toL "kW") = URes.val (2 * 1000) :=
  (C5_unit_normalizer (toL "2") (toL "kW") 2 1000 (by decide)
    (by
      have h2 : parseFloat (toL "2") = some (FloatLit.value ⟨1, 2, 0, 0⟩) := rfl
      rw [h2]
      simp only [Option.some.injEq, FloatLit.value]
      norm_num)).2.2.2.1 rfl

theorem mlookup_minsert (m : DMap) (k o : String) (v : List String) :
    mlookup (minsert m k v) o =
      match mlookup m o with
      | some w => some w
      | none => if o = k then some v else none := by
  induction m with
  | nil => simp [minsert, mlookup]
  | cons p m ih =>
    obtain ⟨pk, pv⟩ := p
    simp only [minsert, List.cons_append, mlookup] at ih ⊢
    by_cases h : o = pk <;> simp [h, ih]

theorem parseLine_ok_obis (l : List Char) (ob : String) (as : List String)
    (h : parseLine l = .ok (ob, as)) : ob = obisOf l := by
  unfold parseLine at h
  cases hp : parseArgsGo l (splitAllP '(' l).2 with
  | error e => rw [hp] at h; exact absurd h (by simp)
  | ok args =>
    rw [hp] at h
    simp only [Except.ok.injEq, Prod.mk.injEq] at h
    exact h.1.symm

theorem lineArgsOk_parseLine (l : List Char) (h : lineArgsOk l = true) :
    ∃ args, parseLine l = .ok (obisOf l, args) := by
  unfold lineArgsOk at h
  cases hp : parseLine l with
  | error e => rw [hp] at h; exact absurd h (by simp)
  | ok p =>
    obtain ⟨ob, args⟩ := p
    refine ⟨args, ?_⟩
    rw [parseLine_ok_obis l ob args hp]

theorem parseLinesLoop_ok_nodup (lines : List (List Char)) (m m' : DMap)
    (h : parseLinesLoop lines m = .ok m') :
    (lines.map obisOf).Nodup ∧ ∀ l ∈ lines, mlookup m (obisOf l) = none := by
  induction lines generalizing m with
  | nil => simp
  | cons l ls ih =>
    cases hp : parseLine l with
    | error e => simp [parseLinesLoop, hp] at h
    | ok p =>
      obtain ⟨ob, args⟩ := p
      simp only [parseLinesLoop, hp] at h
      by_cases hl : (mlookup m ob).isSome = true
      · rw [if_pos hl] at h; exact absurd h (by simp)
      · rw [if_neg hl] at h
        have hob := parseLine_ok_obis l ob args hp
        subst hob
        obtain ⟨h1, h2⟩ := ih _ h
        have hnone : mlookup m (obisOf l) = none := Option.not_isSome_iff_eq_none.mp hl
        refine ⟨?_, ?_⟩
        · rw [List.map_cons, List.nodup_cons]
          refine ⟨?_, h1⟩
          intro hmem
          obtain ⟨l', hl', heq⟩ := List.mem_map.mp hmem
          have := h2 l' hl'
          rw [heq, mlookup_minsert, hnone] at this
          simp at this
        · intro l' hl'
          rcases List.mem_cons.mp hl' with rfl | hl'
          · exact hnone
          · have := h2 l' hl'
            rw [mlookup_minsert] at this
            cases hm' : mlookup m (obisOf l') with
            | none => rfl
            | some w => rw [hm'] at this; exact absurd this (by simp)

theorem parseLinesLoop_dup (lines : List (List Char)) (m : DMap)
    (hwf : ∀ l ∈ lines, lineArgsOk l = true)
    (hbad : (∃ l ∈ lines, (mlookup m (obisOf l)).isSome = true)
            ∨ ¬ (lines.map obisOf).Nodup) :
    ∃ ob, parseLinesLoop lines m = .error (.duplicateObis ob) := by
  induction lines generalizing m with
  | nil =>
    rcases hbad with ⟨l, hl, _⟩ | hnd
    · exact absurd hl (by simp)
    · simp at hnd
  | cons l ls ih =>
    obtain ⟨args, hpl⟩ := lineArgsOk_parseLine l (hwf l (by simp))
    simp only [parseLinesLoop, hpl]
    by_cases hs : (mlookup m (obisOf l)).isSome = true
    · rw [if_pos hs]
      exact ⟨obisOf l, rfl⟩
    · rw [if_neg hs]
      have hnone : mlookup m (obisOf l) = none := Option.not_isSome_iff_eq_none.mp hs
      refine ih (minsert m (obisOf l) args) (fun y hy => hwf y (List.mem_cons_of_mem _ hy)) ?_
      rcases hbad with ⟨l', hl', hsome⟩ | hnd
      · rcases List.mem_cons.mp hl' with rfl | hl'
        · exact absurd hsome hs
        · left
          refine ⟨l', hl', ?_⟩
          rw [mlookup_minsert]
          obtain ⟨w, hw⟩ := Option.isSome_iff_exists.mp hsome
          rw [hw]
          rfl
      · rw [List.map_cons, List.nodup_cons] at hnd
        rcases not_and_or.mp hnd with hmem | hnd2
        · left
          obtain ⟨l', hl', heq⟩ := List.mem_map.mp (not_not.mp hmem)
          refine ⟨l', hl', ?_⟩
          rw [heq, mlookup_minsert, hnone]
          simp
        · right
          exact hnd2

/-- C6 counterexample: the data section ["A(1", "A(2)"] has the code "A" on
two distinct lines, yet line splitting aborts with the malformed-argument
error of the first line, not with a duplicate-code error. -/
theorem C6_counterexample :
    parseLines [toL "A(1", toL "A(2)"] = .plErr (.malformedArgument "A(1")
  ∧ obisOf (toL "A(1") = obisOf (toL "A(2)")
  ∧ ¬ (([toL "A(1", toL "A(2)"].map obisOf).Nodup) := by
  refine ⟨by decide, by decide, by decide⟩

/-- C6 (amended): a data section in which some code appears on two distinct
merged lines always aborts the whole telegram (line splitting never returns
a mapping, so no Telegram value is produced); the reported error is the
duplicate-code error whenever every line passes the argument-syntax check,
but an earlier malformed-argument line aborts with that error instead. -/
theorem C6_duplicate_aborts (raw lines : List (List Char))
    (hm : mergeLines raw = some lines)
    (hdup : ¬ (lines.map obisOf).Nodup) :
    (∃ e, parseLines raw = .plErr e)
  ∧ ((∀ l ∈ lines, lineArgsOk l = true) →
       ∃ ob, parseLines raw = .plErr (.duplicateObis ob)) := by
  constructor
  · simp only [parseLines, hm]
    cases hl : parseLinesLoop lines [] with
    | error e => simp only [hl]; exact ⟨e, rfl⟩
    | ok m => exact absurd (parseLinesLoop_ok_nodup lines [] m hl).1 hdup
  · intro hwf
    simp only [parseLines, hm]
    obtain ⟨ob, hob⟩ := parseLinesLoop_dup lines [] hwf (Or.inr hdup)
    simp only [hob]
    exact ⟨ob, rfl⟩

theorem C6_witness :
    (∃ e, parseLines [toL "A(1)", toL "A(2)"] = .plErr e)
  ∧ (∃ ob, parseLines [toL "A(1)", toL "A(2)"] = .plErr (.duplicateObis ob)) := by
  have h := C6_duplicate_aborts [toL "A(1)", toL "A(2)"] [toL "A(1)", toL "A(2)"]
    (by decide) (by decide)
  exact ⟨h.1, h.2 (by decide)⟩

/-- C7: a registry entry whose code is absent from the mapping appends the
missing-data error and leaves the field at its zero value when the field is
non-optional, leaves an optional field unset with no error, and in either
case decoding continues over the remaining entries with the mapping
unchanged. -/
theorem C7_absent_code (e : RegEntry) (es : List RegEntry) (d : DMap)
    (h : mlookup d e.obis = none) :
    fillStruct (e :: es) d =
      ⟨(e.obis, if e.optional then FieldState.unset else FieldState.zero)
         :: (fillStruct es d).fields,
       (if e.optional then [] else [Err.missingData e.obis]) ++ (fillStruct es d).errs,
       (fillStruct es d).rest⟩ := by
  simp [fillStruct, fillField, h]

theorem C7_witness :
    fillStruct [⟨"1-3:0.2.8", DecodeKind.id, false⟩] [] =
      ⟨[("1-3:0.2.8", FieldState.zero)], [Err.missingData "1-3:0.2.8"], []⟩ := by
  have h := C7_absent_code ⟨"1-3:0.2.8", DecodeKind.id, false⟩ [] [] (by decide)
  simpa [fillStruct] using h

theorem mlookup_merase (m : DMap) (k o : String) :
    mlookup (merase m k) o = if o = k then none else mlookup m o := by
  induction m with
  | nil => simp [merase, mlookup]
  | cons p m ih =>
    obtain ⟨pk, pv⟩ := p
    simp only [merase, mlookup]
    by_cases h1 : pk = k <;> by_cases h2 : o = pk <;>
      simp_all [mlookup]

theorem fillField_rest (e : RegEntry) (d : DMap) (o : String) :
    mlookup (fillField e d).2.2 o = if o = e.obis then none else mlookup d o := by
  unfold fillField
  cases h : mlookup d e.obis with
  | none =>
    by_cases ho : o = e.obis
    · subst ho; simp [h]
    · simp [ho]
  | some args => simp [mlookup_merase]

theorem fillStruct_rest (es : List RegEntry) (d : DMap) (o : String) :
    mlookup (fillStruct es d).rest o =
      if o ∈ es.map RegEntry.obis then none else mlookup d o := by
  induction es generalizing d with
  | nil => simp [fillStruct]
  | cons e es ih =>
    simp only [fillStruct]
    rw [ih, fillField_rest]
    by_cases h1 : o ∈ es.map RegEntry.obis <;> by_cases h2 : o = e.obis <;>
      simp [h1, h2]

theorem mlookup_fillStruct_ite (es : List RegEntry) (b : Bool) (dd : DMap) (o : String) :
    mlookup (if b then fillStruct es dd else ⟨[], [], dd⟩).rest o
      = if b ∧ o ∈ es.map RegEntry.obis then none else mlookup dd o := by
  cases b
  · simp
  · simp [fillStruct_rest]

/-- C8: after decoding, the residual mapping is exactly the restriction of
the telegram's code-to-arguments mapping to the codes not claimed by any
applied registry entry (argument lists untouched); every claimed code is
gone from it. -/
theorem C8_residual (marker hid : String) (d : DMap) (o : String) :
    mlookup (decodeData marker hid d).1.other o =
      if o ∈ claimedObis d then none else mlookup d o := by
  simp only [decodeData, claimedObis]
  simp only [mlookup_fillStruct_ite, fillStruct_rest]
  have m1 : ("1-0:1.8.1" ∈ telegramReg.map RegEntry.obis) = False := by decide
  have m2 : ("1-0:41.7.0" ∈ telegramReg.map RegEntry.obis) = False := by decide
  have m3 : ("1-0:41.7.0" ∈ elecReg.map RegEntry.obis) = False := by decide
  have m4 : ("0-1:24.2.1" ∈ telegramReg.map RegEntry.obis) = False := by decide
  have m5 : ("0-1:24.2.1" ∈ elecReg.map RegEntry.obis) = False := by decide
  have m6 : ("0-1:24.2.1" ∈ multiReg.map RegEntry.obis) = False := by decide
  simp only [m1, m2, m3, m4, m5, m6, if_false, and_false, false_and, if_neg, not_false_iff]
  by_cases h1 : (mlookup d "1-0:1.8.1").isSome = true <;>
  by_cases h2 : (mlookup d "1-0:41.7.0").isSome = true <;>
  by_cases h3 : (mlookup d "0-1:24.2.1").isSome = true <;>
  by_cases hoT : o ∈ telegramReg.map RegEntry.obis <;>
  by_cases hoE : o ∈ elecReg.map RegEntry.obis <;>
  by_cases hoM : o ∈ multiReg.map RegEntry.obis <;>
  by_cases hoG : o ∈ gasReg.map RegEntry.obis <;>
    simp [h1, h2, h3, hoT, hoE, hoM, hoG, List.mem_append]

theorem appendToLast_ne_nil (acc : List (List Char)) (l : List Char)
    (h : acc ≠ []) : appendToLast acc l ≠ [] := by
  cases acc with
  | nil => exact absurd rfl h
  | cons x xs => cases xs <;> simp [appendToLast]

theorem mergeLoop_isSome (ls : List (List Char)) (acc : List (List Char))
    (h : acc ≠ []) : (mergeLoop acc ls).isSome = true := by
  induction ls generalizing acc with
  | nil => simp [mergeLoop]
  | cons l ls ih =>
    unfold mergeLoop
    by_cases hc : l.head? = some '('
    · rw [if_pos hc]
      cases acc with
      | nil => exact absurd rfl h
      | cons x xs => exact ih _ (appendToLast_ne_nil _ _ (by simp))
    · rw [if_neg hc]
      exact ih _ (by simp)

/-- C9: when the first raw line does not begin with '(', the
continuation-line merge never indexes before the start of the accumulated
list (it always completes); and the precondition is necessary, because a
first line beginning with '(' makes lines[len(lines)-1] index an empty
list — a panic, modelled as none. -/
theorem C9_merge_safety (h : List Char) (t : List (List Char))
    (hh : ¬ h.head? = some '(') :
    (mergeLines (h :: t)).isSome = true
  ∧ (∀ (h2 : List Char) (t2 : List (List Char)),
       h2.head? = some '(' → mergeLines (h2 :: t2) = none) := by
  constructor
  · unfold mergeLines mergeLoop
    rw [if_neg hh]
    exact mergeLoop_isSome _ _ (by simp)
  · intro h2 t2 hc
    unfold mergeLines mergeLoop
    rw [if_pos hc]

theorem C9_witness :
    (mergeLines [toL "1-0:1.8.1(1)", toL "(2)"]).isSome = true
  ∧ mergeLines [toL "(2)"] = none := by
  have h := C9_merge_safety (toL "1-0:1.8.1(1)") [toL "(2)"] (by decide)
  exact ⟨h.1, h.2 (toL "(2)") [] (by decide)⟩

theorem fillFieldVal_err_init (k : DecodeKind) (ob : String) (args : List String)
    (init : FieldState) (h : (fillFieldVal k ob args init).2 ≠ []) :
    (fillFieldVal k ob args init).1 = init := by
  unfold fillFieldVal at h ⊢
  cases k with
  | id => rcases args with _ | ⟨a, _ | ⟨b, rest⟩⟩ <;> simp_all
  | int =>
    rcases args with _ | ⟨a, rest⟩
    · simp_all
    · rcases rest with _ | ⟨b, rest2⟩
      · cases hg : goAtoi a <;> simp_all
      · simp_all
  | gasrecord =>
    rcases args with _ | ⟨a, rest⟩
    · simp_all
    · rcases rest with _ | ⟨b, rest2⟩
      · simp_all
      · rcases rest2 with _ | ⟨c, rest3⟩
        · cases hg : parseUnit b <;> simp_all
        · simp_all
  | unit =>
    rcases args with _ | ⟨a, rest⟩
    · simp_all
    · rcases rest with _ | ⟨b, rest2⟩
      · cases hg : parseUnit a <;> simp_all
      · simp_all
  | log => simp_all

/-- C10: an optional (pointer) registry field whose code is present but
whose arguments fail validation keeps the freshly allocated zero value the
pointer was set to before the arguments were inspected — an observably
different state from the unset pointer of an absent optional field. -/
theorem C10_alloc_on_error (e : RegEntry) (d : DMap) (args : List String)
    (hopt : e.optional = true) (hp : mlookup d e.obis = some args)
    (herr : (fillField e d).2.1 ≠ []) :
    (fillField e d).1 = FieldState.allocZero
  ∧ FieldState.allocZero ≠ FieldState.unset := by
  refine ⟨?_, by decide⟩
  unfold fillField at herr ⊢
  rw [hp] at herr ⊢
  rw [hopt] at herr ⊢
  simp only [if_true] at herr ⊢
  exact fillFieldVal_err_init _ _ _ _ herr

theorem C10_witness :
    (fillField ⟨"0-0:17.0.0", DecodeKind.unit, true⟩ [("0-0:17.0.0", ["x"])]).1
      = FieldState.allocZero
  ∧ FieldState.allocZero ≠ FieldState.unset :=
  C10_alloc_on_error ⟨"0-0:17.0.0", DecodeKind.unit, true⟩ [("0-0:17.0.0", ["x"])]
    ["x"] rfl (by decide) (by decide)
